import Mathlib

/-!
Verification of the graph execution runtime (editor/src/node_graph_executor.rs).

The Rust source is shallowly embedded: hash maps become association lists
(iteration order is list order), channels become explicit message lists,
fresh random node ids become explicitly passed or counter-generated ids,
panics become an explicit outcome constructor, and the external compiler and
executor boundaries become function parameters.
-/

namespace Graphite

/-- Node identifiers; the Rust NodeId wraps a u64. -/
abbrev NodeId := Nat

/-- Opaque font cache contents (only stored and forwarded by this subsystem). -/
abbrev FontCache := Nat

/-- Opaque editor preferences (only stored and forwarded by this subsystem). -/
abbrev EditorPreferences := Nat

/-- Opaque render configuration carried by an execution request. -/
abbrev RenderConfig := Nat

/-- Opaque resolved type information returned by a successful compile. -/
abbrev ResolvedDocumentNodeTypesDelta := Nat

/-- Structural graph errors reported by the executor update. -/
abbrev GraphErrors := List String

/-- An input slot of a document node.  The source only inspects the
Node variant; every non-node variant (Value, Network, Inline, Scope) is
collapsed into the value constructor, which the source never rewires. -/
inductive NodeInput where
  | node (nodeId : NodeId) (outputIndex : Nat)
  | value (tagged : Nat)
deriving DecidableEq

/-- A document node: ordered input slots plus an implementation.  The Rust
DocumentNodeImplementation enum is inlined into the two constructors (a proto
node identified by name, or a nested network given by its node map and its
exports); the manualComposition and skipDeduplication fields are carried
because the monitor-node constructions in the source set them. -/
inductive DocumentNode where
  | protoNode (inputs : List NodeInput) (identifier : String)
      (manualComposition : Option String) (skipDeduplication : Bool)
  | networkNode (inputs : List NodeInput) (nestedNodes : List (NodeId × DocumentNode))
      (nestedExports : List NodeInput)
      (manualComposition : Option String) (skipDeduplication : Bool)

/-- A node network: a map from node id to node (association list, standing in
for the HashMap; iteration order is list order) plus the list of exports. -/
structure NodeNetwork where
  nodes : List (NodeId × DocumentNode)
  exports : List NodeInput

def DocumentNode.inputs : DocumentNode → List NodeInput
  | .protoNode i _ _ _ => i
  | .networkNode i _ _ _ _ => i

/-- Replace the input list of a node, leaving everything else unchanged
(modelling in-place mutation of the inputs through iter_mut). -/
def DocumentNode.withInputs : DocumentNode → List NodeInput → DocumentNode
  | .protoNode _ n mc sd, i => .protoNode i n mc sd
  | .networkNode _ nn ne mc sd, i => .networkNode i nn ne mc sd

/-- Association list membership test, modelling HashMap contains_key. -/
def containsKey {κ α : Type} [DecidableEq κ] (l : List (κ × α)) (k : κ) : Bool :=
  l.any (fun e => decide (e.1 = k))

/-- Association list lookup, modelling HashMap get. -/
def lookupKey {κ α : Type} [DecidableEq κ] : List (κ × α) → κ → Option α
  | [], _ => none
  | (k', v) :: rest, k => if k' = k then some v else lookupKey rest k

/-- Association list insert, modelling HashMap insert: replaces the value of
an existing key, otherwise appends a new entry. -/
def insertKey {κ α : Type} [DecidableEq κ] (l : List (κ × α)) (k : κ) (v : α) : List (κ × α) :=
  if containsKey l k then l.map (fun e => if e.1 = k then (k, v) else e) else l ++ [(k, v)]

/-- Association list removal, modelling HashMap remove (the removed value, if
any, is recovered separately with lookupKey). -/
def eraseKey {κ α : Type} [DecidableEq κ] (l : List (κ × α)) (k : κ) : List (κ × α) :=
  l.filter (fun e => decide (e.1 ≠ k))

/-- The keys of an association list. -/
def keysOf {κ α : Type} (l : List (κ × α)) : List κ :=
  l.map Prod.fst

/-! ## Runtime loop messages and the coalescing drain (NodeRuntime::run) -/

/-- A graph update sent to the runtime: the network plus an optional node id
to be temporarily inspected during execution. -/
structure GraphUpdate where
  network : NodeNetwork
  inspect_node : Option NodeId

/-- An execution request: unique id plus render configuration. -/
structure ExecutionRequest where
  execution_id : Nat
  render_config : RenderConfig
deriving DecidableEq

/-- Messages passed from the editor thread to the node runtime thread. -/
inductive NodeRuntimeMessage where
  | graphUpdate (u : GraphUpdate)
  | executionRequest (r : ExecutionRequest)
  | fontCacheUpdate (f : FontCache)
  | editorPreferencesUpdate (p : EditorPreferences)

def isFontMsg : NodeRuntimeMessage → Bool
  | .fontCacheUpdate _ => true
  | _ => false

def isPreferencesMsg : NodeRuntimeMessage → Bool
  | .editorPreferencesUpdate _ => true
  | _ => false

def isGraphMsg : NodeRuntimeMessage → Bool
  | .graphUpdate _ => true
  | _ => false

def isExecutionMsg : NodeRuntimeMessage → Bool
  | .executionRequest _ => true
  | _ => false

/-- The four latest-wins slots filled while draining the channel. -/
structure DrainSlots where
  font : Option NodeRuntimeMessage
  preferences : Option NodeRuntimeMessage
  graph : Option NodeRuntimeMessage
  execution : Option NodeRuntimeMessage

/-- One step of the drain loop: the incoming message overwrites the slot of
its category. -/
def drainStep (s : DrainSlots) (m : NodeRuntimeMessage) : DrainSlots :=
  match m with
  | .graphUpdate _ => { s with graph := some m }
  | .executionRequest _ => { s with execution := some m }
  | .fontCacheUpdate _ => { s with font := some m }
  | .editorPreferencesUpdate _ => { s with preferences := some m }

/-- The coalescing drain at the head of NodeRuntime::run: all queued messages
are read, only the last of each category is kept, and the retained messages
are ordered font, preferences, graph, execution. -/
def coalesce (msgs : List NodeRuntimeMessage) : List NodeRuntimeMessage :=
  let s := msgs.foldl drainStep ⟨none, none, none, none⟩
  [s.font, s.preferences, s.graph, s.execution].filterMap id

/-- Which responses the per-message handler of NodeRuntime::run emits: a graph
update always sends exactly one compilation response, an execution request
always sends exactly one execution response, and the font-cache and
preferences handlers swallow the result of their recompilation. -/
inductive ResponseKind where
  | compilation
  | execution
deriving DecidableEq

def responsesOf : NodeRuntimeMessage → List ResponseKind
  | .graphUpdate _ => [.compilation]
  | .executionRequest _ => [.execution]
  | .fontCacheUpdate _ => []
  | .editorPreferencesUpdate _ => []

/-! ## Inspect subscription (InspectState::monitor_inspect_node) -/

/-- Which node is inspected and which monitor node is used for the current
execution. -/
structure InspectState where
  inspect_node : NodeId
  monitor_node : NodeId
deriving DecidableEq

/-- The proto identifier of the monitor node implementation. -/
def monitorIdentifier : String := "graphene_core::memo::MonitorNode"

/-- The edge rewrite applied by monitor_inspect_node to every node input and
every export: a reference to the primary output (index 0) of the inspect node
is redirected to the monitor; everything else is untouched. -/
def retargetInput (inspect_node monitor_id : NodeId) (input : NodeInput) : NodeInput :=
  match input with
  | .node node_id output_index =>
      if output_index ≠ 0 ∨ node_id ≠ inspect_node then input
      else .node monitor_id output_index
  | _ => input

/-- The monitor document node inserted for an inspect subscription: its single
input is the primary output of the inspect node. -/
def inspectMonitorNode (inspect_node : NodeId) : DocumentNode :=
  .protoNode [NodeInput.node inspect_node 0] monitorIdentifier (some "T") true

/-- InspectState::monitor_inspect_node: rewires every node input and every
export that referenced the primary output of the inspect node to point at a
fresh monitor node, then inserts the monitor whose own input is the original
inspect node.  The fresh id produced by NodeId::new is passed explicitly. -/
def monitor_inspect_node (network : NodeNetwork) (inspect_node : NodeId) (monitor_id : NodeId) :
    NodeNetwork × InspectState :=
  let rewired := network.nodes.map fun e => (e.1, e.2.withInputs (e.2.inputs.map (retargetInput inspect_node monitor_id)))
  let exports := network.exports.map (retargetInput inspect_node monitor_id)
  (⟨insertKey rewired monitor_id (inspectMonitorNode inspect_node), exports⟩,
   ⟨inspect_node, monitor_id⟩)

/-! ## Compilation (NodeRuntime::update_network) and the graph-update handler -/

/-- A node of the compiled proto network: its proto identifier and its
original-location path. -/
structure ProtoNode where
  identifier : String
  originalLocationPath : Option (List NodeId)

/-- The compiled flat program. -/
structure ProtoNetwork where
  nodes : List ProtoNode

/-- Modelled from the spec: wrap_network_in_scope (interpreted_executor::util,
not under src) scopes the submitted graph for compilation.  The spec treats
the export-count invariant as a property of the submitted graph checked at
compile time (section 3 of the spec: exactly one export per graph, violations
hit a defensive assertion), so wrapping is modelled as export-preserving, the
identity. -/
def wrap_network_in_scope (network : NodeNetwork) : NodeNetwork :=
  network

deriving instance DecidableEq for Except

/-- The compilation response sent back to the editor. -/
structure CompilationResponse where
  result : Except String ResolvedDocumentNodeTypesDelta
  node_graph_errors : GraphErrors
deriving DecidableEq

/-- The persistent runtime-loop state touched by compilation and the
observation sweep (the fields of NodeRuntime that the embedded operations
read or write). -/
structure NodeRuntimeState where
  old_graph : Option NodeNetwork
  node_graph_errors : GraphErrors
  monitor_nodes : List (List NodeId)
  inspect_state : Option InspectState
  thumbnail_renders : List (NodeId × Nat)
  vector_modify : List (NodeId × Nat)
  update_thumbnails : Bool

/-- The external compiler and executor boundary, passed as functions: the
Compiler (compile_single) and DynamicExecutor::update. -/
structure ExternalBoundary where
  compile_single : NodeNetwork → Except String ProtoNetwork
  executor_update : ProtoNetwork → Except GraphErrors ResolvedDocumentNodeTypesDelta

/-- Debug formatting of executor errors (the Rust format of the error list). -/
def formatGraphErrors (e : GraphErrors) : String :=
  String.intercalate "; " e

/-- Outcome of update_network: either a panic (a failed assertion, fatal to
the loop) or a state plus the result that is put into the compilation
response. -/
inductive UpdateNetworkResult where
  | panicked (msg : String)
  | done (st : NodeRuntimeState) (result : Except String ResolvedDocumentNodeTypesDelta)

/-- NodeRuntime::update_network: wraps the graph in a scope, asserts exactly
one export (assert_eq panics otherwise), compiles, records the monitor-node
paths of the proto network, asserts the proto network is nonempty, and
updates the executor, storing executor errors in node_graph_errors. -/
def update_network (ext : ExternalBoundary) (st : NodeRuntimeState) (graph : NodeNetwork) :
    UpdateNetworkResult :=
  let scoped_network := wrap_network_in_scope graph
  if scoped_network.exports.length ≠ 1 then
    .panicked "Graph with multiple outputs not yet handled"
  else
    match ext.compile_single scoped_network with
    | .error e => .done st (.error e)
    | .ok proto_network =>
        let st := { st with
          monitor_nodes := (proto_network.nodes.filter
              (fun n => decide (n.identifier = monitorIdentifier))).map
            (fun n => n.originalLocationPath.getD []) }
        if proto_network.nodes.length = 0 then
          .panicked "No proto nodes exist?"
        else
          match ext.executor_update proto_network with
          | .error e => .done { st with node_graph_errors := e } (.error (formatGraphErrors e))
          | .ok delta => .done st (.ok delta)

/-- Outcome of one GraphUpdate message handled by NodeRuntime::run: either a
panic (fatal to the loop, no response sent) or the new state plus the
compilation response that is sent. -/
inductive LoopStepResult where
  | panicked (msg : String)
  | ok (st : NodeRuntimeState) (response : CompilationResponse)

/-- The state mutations of the GraphUpdate arm before compiling: record the
inspect state, store the (already injected) network as old_graph and clear
node_graph_errors. -/
def preCompileState (st : NodeRuntimeState) (network : NodeNetwork)
    (inspect : Option InspectState) : NodeRuntimeState :=
  { st with inspect_state := inspect, old_graph := some network, node_graph_errors := [] }

/-- The common tail of the GraphUpdate arm of NodeRuntime::run, after the
optional monitor injection: applies the pre-compile state mutations,
recompiles, marks thumbnails for refresh, and sends a compilation response
carrying the result and the collected graph errors. -/
def handleGraphUpdateCore (ext : ExternalBoundary) (st : NodeRuntimeState)
    (network : NodeNetwork) (inspect : Option InspectState) : LoopStepResult :=
  match update_network ext (preCompileState st network inspect) network with
  | .panicked msg => .panicked msg
  | .done st2 result =>
      .ok { st2 with update_thumbnails := true }
        { result := result, node_graph_errors := st2.node_graph_errors }

/-- The GraphUpdate arm of NodeRuntime::run: injects the inspect monitor when
an inspect node is given (mutating the network), then runs the common tail on
the mutated network. -/
def handleGraphUpdate (ext : ExternalBoundary) (st : NodeRuntimeState) (network : NodeNetwork)
    (inspect_node : Option NodeId) (fresh_monitor_id : NodeId) : LoopStepResult :=
  match inspect_node with
  | none => handleGraphUpdateCore ext st network none
  | some inspect =>
      handleGraphUpdateCore ext st
        (monitor_inspect_node network inspect fresh_monitor_id).1
        (some (monitor_inspect_node network inspect fresh_monitor_id).2)

/-- Projection: the panic message of a loop step, if it panicked. -/
def LoopStepResult.panicMessage : LoopStepResult → Option String
  | .panicked msg => some msg
  | .ok _ _ => none

/-- Projection: the stored last-known graph after a loop step. -/
def LoopStepResult.oldGraphOf : LoopStepResult → Option NodeNetwork
  | .panicked _ => none
  | .ok st _ => st.old_graph

/-- Projection: the compilation response sent by a loop step. -/
def LoopStepResult.responseOf : LoopStepResult → Option CompilationResponse
  | .panicked _ => none
  | .ok _ r => some r

/-! ## Observation sweep (NodeRuntime::process_monitor_nodes) -/

/-- Evaluation-context type of a stored IORecord. -/
inductive CtxKind where
  | unitCtx
  | footprintCtx
  | contextCtx
  | otherCtx
deriving DecidableEq

/-- A type-erased value read back from a monitor node, as far as the source
inspects it: an IORecord with some context type, a result-type name
(GraphicElement, Artboard, VectorDataTable, or anything else) and an output
value, or a value that is no IORecord at all. -/
inductive IntrospectedValue where
  | ioRecord (ctx : CtxKind) (resultType : String) (output : Nat)
  | notIORecord
deriving DecidableEq

/-- Reading back the last value observed at a path: the executor introspect
call, abstracted as a function (errors collapse to none, as every caller in
the source treats the Err case as absence). -/
abbrev Introspect := List NodeId → Option IntrospectedValue

/-- The owning (parent) document node of a monitor path: the second-to-last
path element (len().checked_sub(2) followed by get). -/
def parentIdOf (path : List NodeId) : Option NodeId :=
  if path.length < 2 then none else path.get? (path.length - 2)

/-- The SVG thumbnail rendered from a graphic element, abstracted: distinct
outputs render to distinct thumbnails, modelled by the value itself. -/
def renderThumbnail (graphicElement : Nat) : Nat :=
  graphicElement

/-- Accumulator of the sweep: the two caches plus the UpdateNodeThumbnail
messages (id, thumbnail) pushed so far. -/
structure SweepAcc where
  thumbnail_renders : List (NodeId × Nat)
  vector_modify : List (NodeId × Nat)
  responses : List (NodeId × Nat)
deriving DecidableEq

/-- NodeRuntime::process_graphic_element: when thumbnails are being updated,
render the value, create the cache entry with a default if missing
(entry().or_default()), and only on a changed render push a frontend message
and store the new render. -/
def process_graphic_element (thumbnail_renders : List (NodeId × Nat))
    (parent_network_node_id : NodeId) (output : Nat) (responses : List (NodeId × Nat))
    (update_thumbnails : Bool) : List (NodeId × Nat) × List (NodeId × Nat) :=
  if !update_thumbnails then (thumbnail_renders, responses)
  else
    let new_thumbnail := renderThumbnail output
    let old_entry := lookupKey thumbnail_renders parent_network_node_id
    let thumbnail_renders :=
      match old_entry with
      | some _ => thumbnail_renders
      | none => thumbnail_renders ++ [(parent_network_node_id, 0)]
    if old_entry.getD 0 ≠ new_thumbnail then
      (insertKey thumbnail_renders parent_network_node_id new_thumbnail,
       responses ++ [(parent_network_node_id, new_thumbnail)])
    else (thumbnail_renders, responses)

/-- Whether a monitor path is the monitor injected for the active inspect
subscription (compared by last path element). -/
def isInspectMonitor (inspect_state : Option InspectState) (path : List NodeId) : Bool :=
  match inspect_state with
  | some s => decide (path.getLast? = some s.monitor_node)
  | none => false

/-- One iteration of the sweep loop over a monitor path: skip the inspect
monitor, derive the parent id (skip paths shorter than 2), introspect (skip
failures), then dispatch on the stored value: IORecords over Context or unit
context holding a GraphicElement or Artboard refresh the thumbnail, ones
holding a VectorDataTable unconditionally replace the vector-modify snapshot,
everything else is ignored. -/
def monitorStep (inspect_state : Option InspectState) (introspect : Introspect)
    (update_thumbnails : Bool) (acc : SweepAcc) (path : List NodeId) : SweepAcc :=
  if isInspectMonitor inspect_state path then acc
  else
    match parentIdOf path with
    | none => acc
    | some parent =>
        match introspect path with
        | none => acc
        | some (.ioRecord ctx resultType output) =>
            if ctx = .contextCtx ∨ ctx = .unitCtx then
              if resultType = "GraphicElement" ∨ resultType = "Artboard" then
                let r := process_graphic_element acc.thumbnail_renders parent output
                  acc.responses update_thumbnails
                { acc with thumbnail_renders := r.1, responses := r.2 }
              else if resultType = "VectorDataTable" then
                { acc with vector_modify := insertKey acc.vector_modify parent output }
              else acc
            else acc
        | some .notIORecord => acc

/-- NodeRuntime::process_monitor_nodes: first retain only thumbnail entries
whose key occurs in some current monitor path, then sweep over all monitor
paths; returns the new state and the pushed frontend messages.  The
vector_modify cache is not pruned by the source. -/
def process_monitor_nodes (st : NodeRuntimeState) (introspect : Introspect)
    (update_thumbnails : Bool) : NodeRuntimeState × List (NodeId × Nat) :=
  let retained := st.thumbnail_renders.filter
    (fun e => st.monitor_nodes.any (fun path => path.contains e.1))
  let acc := st.monitor_nodes.foldl
    (monitorStep st.inspect_state introspect update_thumbnails)
    ⟨retained, st.vector_modify, []⟩
  ({ st with thumbnail_renders := acc.thumbnail_renders, vector_modify := acc.vector_modify },
   acc.responses)

/-! ## Client handle: graph-update deduplication (NodeGraphExecutor::update_node_graph) -/

/-- The client-handle state relevant to graph-update deduplication: the hash
of the last graph sent and the previously inspected node. -/
structure ExecutorDedupState where
  node_graph_hash : Nat
  old_inspect_node : Option NodeId

/-- NodeGraphExecutor::update_node_graph: sends the graph only when the
content hash changed, the inspected node changed, or ignore_hash is set; on a
send both stored values are replaced.  The hash of the current document
network is passed in (current_hash is external to this file). -/
def update_node_graph (st : ExecutorDedupState) (network_hash : Nat) (network : NodeNetwork)
    (inspect_node : Option NodeId) (ignore_hash : Bool) :
    ExecutorDedupState × Option GraphUpdate :=
  if network_hash ≠ st.node_graph_hash ∨ st.old_inspect_node ≠ inspect_node ∨ ignore_hash then
    ({ node_graph_hash := network_hash, old_inspect_node := inspect_node },
     some { network := network, inspect_node := inspect_node })
  else (st, none)

/-! ## Client handle: response polling (NodeGraphExecutor::poll_node_graph_evaluation) -/

/-- The kind of rendered output carried by a RenderOutput value. -/
inductive RenderOutputType where
  | svg (s : String)
  | canvasFrame (surface : Nat)
  | otherRender
deriving DecidableEq

/-- The output value of a graph execution, as far as poll processing
distinguishes it: a RenderOutput, one of the nine debug-renderable variants
(Bool, String, F64, DVec2, OptionalColor, VectorData, GraphicGroup,
ImageFrame, Palette - all handled identically by debug_render), or anything
else. -/
inductive TaggedValue where
  | renderOutput (data : RenderOutputType)
  | debugRenderable (payload : Nat)
  | otherValue
deriving DecidableEq

/-- The file type of an export. -/
inductive FileType where
  | svgFile
  | pngFile
  | jpgFile
deriving DecidableEq

/-- Export parameters stored with an export execution request. -/
structure ExportConfig where
  file_name : String
  file_type : FileType
deriving DecidableEq

/-- Per-request context stored at submission time: an export context or a
normal preview (none). -/
structure ExecutionContext where
  export_config : Option ExportConfig
deriving DecidableEq

/-- NodeGraphExecutor::export: only an SVG render output can be exported;
the frontend download messages it pushes are not modelled. -/
def exportOutput (node_graph_output : TaggedValue) (_config : ExportConfig) :
    Except String Unit :=
  match node_graph_output with
  | .renderOutput (.svg _) => .ok ()
  | _ => .error "Incorrect render type for exporting (expected RenderOutput::Svg)"

/-- NodeGraphExecutor::process_node_graph_output: render outputs of SVG or
canvas kind and the debug-renderable values succeed (the frontend messages
they push are not modelled); any other value is an invalid output type. -/
def process_node_graph_output (node_graph_output : TaggedValue) : Except String Unit :=
  match node_graph_output with
  | .renderOutput (.svg _) => .ok ()
  | .renderOutput (.canvasFrame _) => .ok ()
  | .renderOutput .otherRender => .error "Invalid node graph output type"
  | .debugRenderable _ => .ok ()
  | .otherValue => .error "Invalid node graph output type"

/-- An execution response, with the fields poll processing dispatches on. -/
structure ExecutionResponse where
  execution_id : Nat
  result : Except String TaggedValue
deriving DecidableEq

/-- A message received back from the runtime. -/
inductive NodeGraphUpdate where
  | executionResponse (r : ExecutionResponse)
  | compilationResult (result : Except String ResolvedDocumentNodeTypesDelta)
  | updateMessage
deriving DecidableEq

/-- Processing of one drained response, mirroring the loop body of
poll_node_graph_evaluation: an Err execution result returns early (before the
context lookup); an Ok execution result removes the context by id, a missing
id being the Invalid generation ID error; found contexts dispatch to export
or normal output processing by the stored context.  Returns the new in-flight
map and the error, if any, with which the poll returns early. -/
def pollStep (futures : List (Nat × ExecutionContext)) (response : NodeGraphUpdate) :
    List (Nat × ExecutionContext) × Option String :=
  match response with
  | .executionResponse r =>
      match r.result with
      | .error e => (futures, some ("Node graph evaluation failed:\n" ++ e))
      | .ok node_graph_output =>
          match lookupKey futures r.execution_id with
          | none => (futures, some "Invalid generation ID")
          | some execution_context =>
              let futures := eraseKey futures r.execution_id
              let processed :=
                match execution_context.export_config with
                | some config => exportOutput node_graph_output config
                | none => process_node_graph_output node_graph_output
              match processed with
              | .error e => (futures, some e)
              | .ok _ => (futures, none)
  | .compilationResult (.error e) =>
      (futures, some ("Node graph evaluation failed:\n" ++ e))
  | .compilationResult (.ok _) => (futures, none)
  | .updateMessage => (futures, none)

/-- NodeGraphExecutor::poll_node_graph_evaluation: all currently available
responses are drained from the channel into a list, then processed in order;
the first error aborts the loop (the question-mark operator), dropping the
remaining drained responses. -/
def poll_node_graph_evaluation (futures : List (Nat × ExecutionContext))
    (results : List NodeGraphUpdate) : List (Nat × ExecutionContext) × Option String :=
  match results with
  | [] => (futures, none)
  | r :: rest =>
      let step := pollStep futures r
      match step.2 with
      | some e => (step.1, some e)
      | none => poll_node_graph_evaluation step.1 rest

/-! ## Instrumentation harness (Instrumented) -/

/-- Stores all of the monitor nodes that have been attached to a graph:
occurrence lists of monitor paths per proto-node name, and monitor paths per
exact node path. -/
structure Instrumented where
  protonodes_by_name : List (String × List (List (List NodeId)))
  protonodes_by_path : List (List NodeId × List (List NodeId))

/-- The empty instrumentation index. -/
def Instrumented.empty : Instrumented :=
  ⟨[], []⟩

/-- Appending one occurrence to the by-name index, modelling
entry(name).or_default().push(occ): the existing entry grows by one
occurrence, a missing entry is created with it. -/
def pushOccurrence : List (String × List (List (List NodeId))) → String →
    List (List NodeId) → List (String × List (List (List NodeId)))
  | [], name, occ => [(name, [occ])]
  | (k, v) :: rest, name, occ =>
      if k = name then (k, v ++ [occ]) :: rest else (k, v) :: pushOccurrence rest name occ

/-- The monitor document node spliced onto one input edge: it takes over the
original input. -/
def instrumentMonitorNode (input : NodeInput) : DocumentNode :=
  .protoNode [input] monitorIdentifier (some "T") true

/-- The inner loop of Instrumented::add over the inputs of one node: each
input is replaced by an edge to a fresh monitor id, the original input is
buffered together with the monitor id, and the full monitor path is recorded;
fresh ids from NodeId::new are modelled by a counter.  Returns the next
counter, the new inputs, the buffered (original input, monitor id) pairs and
the monitor paths. -/
def instrumentInputs (ctr : Nat) (path : List NodeId) :
    List NodeInput → Nat × List NodeInput × List (NodeInput × NodeId) × List (List NodeId)
  | [] => (ctr, [], [], [])
  | input :: rest =>
      let node_id := ctr
      let r := instrumentInputs (ctr + 1) path rest
      (r.1, NodeInput.node node_id 0 :: r.2.1, (input, node_id) :: r.2.2.1,
       (path ++ [node_id]) :: r.2.2.2)

/-- Inserting the buffered monitor nodes into a node map after the walk of
that network finished (the ids are fresh, so HashMap insert appends). -/
def appendMonitors (nodes : List (NodeId × DocumentNode))
    (buffer : List (NodeInput × NodeId)) : List (NodeId × DocumentNode) :=
  nodes ++ buffer.map (fun p => (p.2, instrumentMonitorNode p.1))

mutual
/-- Instrumented::add, walking one node map: recurse into nested networks
first, then replace every input of the current node by a monitor edge, and
index proto nodes by name and by path.  Returns the updated index, the next
fresh id, the rewritten nodes and the buffered monitor insertions of this
network (applied by the caller after the walk, exactly as the source buffers
them). -/
def Instrumented.addNodes (inst : Instrumented) (ctr : Nat) (path : List NodeId) :
    List (NodeId × DocumentNode) →
    Instrumented × Nat × List (NodeId × DocumentNode) × List (NodeInput × NodeId)
  | [] => (inst, ctr, [], [])
  | (id, node) :: rest =>
      let r1 := Instrumented.addNode inst ctr path id node
      let r2 := Instrumented.addNodes r1.1 r1.2.1 path rest
      (r2.1, r2.2.1, (id, r1.2.2.1) :: r2.2.2.1, r1.2.2.2 ++ r2.2.2.2)

/-- Instrumented::add, for a single node of the map. -/
def Instrumented.addNode (inst : Instrumented) (ctr : Nat) (path : List NodeId) (id : NodeId) :
    DocumentNode → Instrumented × Nat × DocumentNode × List (NodeInput × NodeId)
  | .protoNode inputs identifier mc sd =>
      let r := instrumentInputs ctr path inputs
      let inst := { inst with
        protonodes_by_name := pushOccurrence inst.protonodes_by_name identifier r.2.2.2,
        protonodes_by_path := inst.protonodes_by_path ++ [(path ++ [id], r.2.2.2)] }
      (inst, r.1, .protoNode r.2.1 identifier mc sd, r.2.2.1)
  | .networkNode inputs nestedNodes nestedExports mc sd =>
      let rn := Instrumented.addNodes inst ctr (path ++ [id]) nestedNodes
      let r := instrumentInputs rn.2.1 path inputs
      (rn.1, r.1,
       .networkNode r.2.1 (appendMonitors rn.2.2.1 rn.2.2.2) nestedExports mc sd,
       r.2.2.1)
end

/-- Instrumented::new: instrument a graph starting with the empty index, the
empty path and fresh ids from 0; returns the index and the rewritten
network. -/
def Instrumented.new (network : NodeNetwork) : Instrumented × NodeNetwork :=
  let r := Instrumented.addNodes Instrumented.empty 0 [] network.nodes
  (r.1, ⟨appendMonitors r.2.2.1 r.2.2.2, network.exports⟩)

mutual
/-- Specification-level occurrence list: the input count of every proto node
with the given name, in traversal order (nested sub-graphs contribute at the
position of their enclosing node). -/
def protonodeInputCountsNode (name : String) : DocumentNode → List Nat
  | .protoNode inputs identifier _ _ => if identifier = name then [inputs.length] else []
  | .networkNode _ nestedNodes _ _ _ => protonodeInputCountsNodes name nestedNodes

/-- Specification-level occurrence list over a node map. -/
def protonodeInputCountsNodes (name : String) : List (NodeId × DocumentNode) → List Nat
  | [] => []
  | (_, n) :: rest => protonodeInputCountsNode name n ++ protonodeInputCountsNodes name rest
end

/-- Instrumented::downcast: accepts an IORecord whose context is unit,
Footprint or Context and whose result type is the expected one; everything
else panics with the fixed message (the source has no returning fallback
branch). -/
def downcast (resultType : String) (dynamic : IntrospectedValue) : Except String Nat :=
  match dynamic with
  | .ioRecord ctx rt output =>
      if ctx ≠ CtxKind.otherCtx ∧ rt = resultType then .ok output
      else .error "cannot downcast type for introspection"
  | .notIORecord => .error "cannot downcast type for introspection"

/-- Whether Instrumented::downcast accepts a stored value: it must be an
IORecord over the unit, Footprint or Context evaluation context whose result
type is the expected one. -/
def downcastable (resultType : String) : IntrospectedValue → Bool
  | .ioRecord ctx rt _ => decide (ctx ≠ CtxKind.otherCtx) && decide (rt = resultType)
  | .notIORecord => false

/-- Consuming the monitor-value sequence through Instrumented::downcast: the
first panic aborts, otherwise all downcast results are collected. -/
def downcastAll (resultType : String) : List IntrospectedValue → Except String (List Nat)
  | [] => .ok []
  | v :: rest =>
      match downcast resultType v with
      | .error e => .error e
      | .ok x =>
          match downcastAll resultType rest with
          | .error e => .error e
          | .ok xs => .ok (x :: xs)

/-- The occurrence list stored under a name in the by-name index
(get(name).map_or of the source: a missing entry reads as empty). -/
def entryOcc (inst : Instrumented) (name : String) : List (List (List NodeId)) :=
  (lookupKey inst.protonodes_by_name name).getD []

/-- Instrumented::grab_all_input: over every occurrence of the named proto
node, take the monitor path of the input at the given index (occurrences
without that input are dropped), introspect it (failures are dropped), and
downcast (a type mismatch panics). -/
def grab_all_input (inst : Instrumented) (introspect : Introspect) (identifier : String)
    (index : Nat) (resultType : String) : Except String (List Nat) :=
  downcastAll resultType
    (((entryOcc inst identifier).filterMap
        (fun inputs => inputs.get? index)).filterMap introspect)

/-- Instrumented::grab_protonode_input: direct lookup by exact path; a missing
path, missing input index or failed introspection give no value, while a
downcast mismatch panics. -/
def grab_protonode_input (inst : Instrumented) (introspect : Introspect) (path : List NodeId)
    (index : Nat) (resultType : String) : Except String (Option Nat) :=
  match lookupKey inst.protonodes_by_path path with
  | none => .ok none
  | some inputs =>
      match inputs.get? index with
      | none => .ok none
      | some input_monitor_node =>
          match introspect input_monitor_node with
          | none => .ok none
          | some dynamic =>
              match downcast resultType dynamic with
              | .error e => .error e
              | .ok v => .ok (some v)

/-- Instrumented::grab_input_from_layer.  The upstream search
(NodeGraphLayer::upstream_node_id_from_protonode, not under src) is modelled
from the spec: grab input reachable upstream from a given visible layer is a
direct single-result lookup returning no value if the mapping is absent, so
the found upstream node id is passed as an optional parameter; a found node
is queried by its one-element path. -/
def grab_input_from_layer (inst : Instrumented) (introspect : Introspect)
    (upstream_node : Option NodeId) (index : Nat) (resultType : String) :
    Except String (Option Nat) :=
  match upstream_node with
  | none => .ok none
  | some node => grab_protonode_input inst introspect [node] index resultType

/-! ## Concrete fixtures used to instantiate the theorems -/

/-- A one-node network with a single export from the primary output of the
node. -/
def exNet : NodeNetwork :=
  ⟨[(10, .protoNode [.value 5, .value 3] "TestNode" none false)], [NodeInput.node 10 0]⟩

/-- A network with zero exports. -/
def zeroExportNet : NodeNetwork :=
  ⟨[(0, .protoNode [] "X" none false)], []⟩

/-- An external boundary whose compiler always reports a structural error. -/
def extStub : ExternalBoundary :=
  ⟨fun _ => .error "compile error", fun _ => .ok 0⟩

/-- An external boundary that compiles everything to a fixed one-node proto
network and resolves types successfully. -/
def extOk : ExternalBoundary :=
  ⟨fun _ => .ok ⟨[⟨"p", none⟩]⟩, fun _ => .ok 7⟩

/-- An initial runtime-loop state. -/
def st0 : NodeRuntimeState :=
  ⟨none, [], [], none, [], [], true⟩

/-- A runtime state with one cached thumbnail whose key occurs in the single
monitor path. -/
def stThumb : NodeRuntimeState :=
  ⟨none, [], [[1, 2]], none, [(1, 5)], [], true⟩

/-- A runtime state with a stale vector-modify entry and no monitors. -/
def stVec : NodeRuntimeState :=
  ⟨none, [], [], none, [], [(42, 7)], true⟩

/-- A runtime state with an active inspect subscription (monitor id 99), one
ordinary monitor path and the inspect monitor path. -/
def stC9 : NodeRuntimeState :=
  ⟨none, [], [[2, 3], [4, 99]], some ⟨1, 99⟩, [(2, 0)], [], true⟩

/-- The same state with the inspect monitor paths filtered away. -/
def stC9' : NodeRuntimeState :=
  { stC9 with monitor_nodes :=
      stC9.monitor_nodes.filter (fun p => !isInspectMonitor (some ⟨1, 99⟩) p) }

/-- An instrumentation index with one by-path entry: the node at path 3 has
one input, monitored at path 7. -/
def instW : Instrumented :=
  ⟨[], [([3], [[7]])]⟩

/-- An introspect function that finds a unit-context record of result type T
and value 5 at monitor path 0 and nothing anywhere else. -/
def introspectW : Introspect :=
  fun p => if p = [0] then some (.ioRecord .unitCtx "T" 5) else none

/-! ## Helper lemmas on association lists and paths -/

theorem containsKey_map_keys {κ α β : Type} [DecidableEq κ]
    (l : List (κ × α)) (f : κ × α → β) (k : κ) :
    containsKey (l.map fun e => (e.1, f e)) k = containsKey l k := by
  induction l with
  | nil => rfl
  | cons e rest ih =>
      have hstep : containsKey ((e :: rest).map fun e => (e.1, f e)) k
          = (decide (e.1 = k) || containsKey (rest.map fun e => (e.1, f e)) k) := rfl
      rw [hstep, ih]
      rfl

theorem insertKey_of_fresh {κ α : Type} [DecidableEq κ] (l : List (κ × α)) (k : κ) (v : α)
    (h : containsKey l k = false) : insertKey l k v = l ++ [(k, v)] := by
  simp [insertKey, h]

theorem containsKey_cons_false {κ α : Type} [DecidableEq κ] (e : κ × α) (rest : List (κ × α))
    (k : κ) (h : containsKey (e :: rest) k = false) :
    ¬e.1 = k ∧ containsKey rest k = false := by
  have h' : (decide (e.1 = k) || containsKey rest k) = false := h
  simpa [Bool.or_eq_false_iff] using h'

theorem lookupKey_append_fresh {κ α : Type} [DecidableEq κ] (l : List (κ × α)) (k : κ) (v : α)
    (h : containsKey l k = false) : lookupKey (l ++ [(k, v)]) k = some v := by
  induction l with
  | nil => simp [lookupKey]
  | cons e rest ih =>
      obtain ⟨hne, hrest⟩ := containsKey_cons_false e rest k h
      obtain ⟨k', v'⟩ := e
      simpa [lookupKey, hne] using ih hrest

theorem keysOf_insertKey {κ α : Type} [DecidableEq κ] (l : List (κ × α)) (key k : κ) (v : α)
    (h : k ∈ keysOf (insertKey l key v)) : k ∈ keysOf l ∨ k = key := by
  rw [insertKey] at h
  by_cases hc : containsKey l key = true
  · rw [if_pos hc] at h
    rw [keysOf, List.map_map, List.mem_map] at h
    obtain ⟨e, he, hk⟩ := h
    by_cases he1 : e.1 = key
    · rw [Function.comp_apply, if_pos he1] at hk
      exact Or.inr hk.symm
    · rw [Function.comp_apply, if_neg he1] at hk
      exact Or.inl (List.mem_map.mpr ⟨e, he, hk⟩)
  · rw [if_neg hc] at h
    rw [keysOf, List.map_append, List.mem_append] at h
    rcases h with h | h
    · exact Or.inl h
    · exact Or.inr (by simpa using h)

theorem parentIdOf_mem (p : List NodeId) (k : NodeId) (h : parentIdOf p = some k) : k ∈ p := by
  rw [parentIdOf] at h
  split at h
  · exact absurd h (by simp)
  · exact List.get?_mem h

/-- C8: update_node_graph sends the graph exactly when the content hash
differs from the stored one, the inspected node differs from the stored one,
or the forced-refresh flag is set; a send stores the new hash and inspected
node and carries the network with the inspect target, and otherwise nothing
is sent and the state is unchanged. -/
theorem C8_update_node_graph_dedup (st : ExecutorDedupState) (network_hash : Nat)
    (network : NodeNetwork) (inspect_node : Option NodeId) (ignore_hash : Bool) :
    ((update_node_graph st network_hash network inspect_node ignore_hash).2.isSome ↔
      (network_hash ≠ st.node_graph_hash ∨ st.old_inspect_node ≠ inspect_node ∨
        ignore_hash = true))
    ∧ ((network_hash ≠ st.node_graph_hash ∨ st.old_inspect_node ≠ inspect_node ∨
          ignore_hash = true) →
        update_node_graph st network_hash network inspect_node ignore_hash
          = (⟨network_hash, inspect_node⟩,
             some { network := network, inspect_node := inspect_node }))
    ∧ (¬(network_hash ≠ st.node_graph_hash ∨ st.old_inspect_node ≠ inspect_node ∨
          ignore_hash = true) →
        update_node_graph st network_hash network inspect_node ignore_hash = (st, none)) := by
  by_cases h : network_hash ≠ st.node_graph_hash ∨ st.old_inspect_node ≠ inspect_node ∨
      ignore_hash = true
  · refine ⟨?_, fun _ => ?_, fun hn => absurd h hn⟩ <;> simp [update_node_graph, h]
  · refine ⟨?_, fun hp => absurd hp h, fun _ => ?_⟩ <;> simp [update_node_graph, h]

/-- C8 witness: a changed hash triggers a send that stores the new hash. -/
theorem C8_update_node_graph_dedup_witness :
    update_node_graph ⟨0, none⟩ 1 exNet none false
      = (⟨1, none⟩, some { network := exNet, inspect_node := none }) :=
  (C8_update_node_graph_dedup ⟨0, none⟩ 1 exNet none false).2.1 (by decide)

/-- C4 counterexample: a drained execution response whose id has a stored
context but whose result is an error returns early with the evaluation-failed
error and leaves the stored context in place, so not every drained execution
response has its context looked up and removed, and the reported error is not
the Invalid generation ID protocol error. -/
theorem C4_poll_counterexample :
    (poll_node_graph_evaluation [(5, ⟨none⟩)]
        [.executionResponse ⟨5, .error "boom"⟩]).1 = [(5, ⟨none⟩)]
    ∧ (poll_node_graph_evaluation [(5, ⟨none⟩)]
        [.executionResponse ⟨5, .error "boom"⟩]).2
      = some ("Node graph evaluation failed:\n" ++ "boom") := by
  constructor <;> rfl

/-- C4 (amended): poll drains all responses into a list and processes them in
order until the first error; an execution response with an Ok result removes
the stored context under its id, a missing context being reported as the
Invalid generation ID error with the map unchanged, while an Err result
returns early before the context lookup, leaving the map unchanged. -/
theorem C4_poll_context_correlation (futures : List (Nat × ExecutionContext)) (id : Nat)
    (out : TaggedValue) (e : String) :
    (lookupKey futures id = none →
      pollStep futures (.executionResponse ⟨id, .ok out⟩)
        = (futures, some "Invalid generation ID"))
    ∧ (pollStep futures (.executionResponse ⟨id, .error e⟩)
        = (futures, some ("Node graph evaluation failed:\n" ++ e)))
    ∧ (∀ ctx, lookupKey futures id = some ctx →
        (pollStep futures (.executionResponse ⟨id, .ok out⟩)).1 = eraseKey futures id)
    ∧ (∀ r rest, (pollStep futures r).2 = none →
        poll_node_graph_evaluation futures (r :: rest)
          = poll_node_graph_evaluation (pollStep futures r).1 rest)
    ∧ (∀ r rest er, (pollStep futures r).2 = some er →
        poll_node_graph_evaluation futures (r :: rest) = ((pollStep futures r).1, some er)) := by
  refine ⟨fun h => ?_, rfl, fun ctx h => ?_, fun r rest h => ?_, fun r rest er h => ?_⟩
  · simp [pollStep, h]
  · simp only [pollStep, h]
    split <;> rfl
  · rw [poll_node_graph_evaluation, h]
  · rw [poll_node_graph_evaluation, h]

/-- C4 witness: an unknown id is reported as Invalid generation ID, and a
known id with an Ok result is removed from the in-flight map. -/
theorem C4_poll_context_correlation_witness :
    pollStep [(5, ⟨none⟩)] (.executionResponse ⟨6, .ok (.renderOutput (.svg "s"))⟩)
      = ([(5, ⟨none⟩)], some "Invalid generation ID")
    ∧ (pollStep [(5, ⟨none⟩)] (.executionResponse ⟨5, .ok (.renderOutput (.svg "s"))⟩)).1
      = eraseKey [(5, ⟨none⟩)] 5 :=
  ⟨(C4_poll_context_correlation [(5, ⟨none⟩)] 6 (.renderOutput (.svg "s")) "").1 (by decide),
   (C4_poll_context_correlation [(5, ⟨none⟩)] 5 (.renderOutput (.svg "s")) "").2.2.1
     ⟨none⟩ (by decide)⟩

/-- Compilation does not touch the stored last-known graph. -/
theorem update_network_old_graph (ext : ExternalBoundary) (st st' : NodeRuntimeState)
    (g : NodeNetwork) (r : Except String ResolvedDocumentNodeTypesDelta)
    (h : update_network ext st g = .done st' r) : st'.old_graph = st.old_graph := by
  rw [update_network] at h
  split at h
  · exact absurd h (by simp)
  · split at h
    · cases h
      rfl
    · split at h
      · exact absurd h (by simp)
      · split at h <;> (cases h; rfl)

/-- C1 counterexample: a graph-update for a network with zero exports makes
the runtime loop panic on the export-count assertion; no compilation response
is produced, so the failure is not reported to the caller and the loop does
not remain usable. -/
theorem C1_zero_export_counterexample :
    (handleGraphUpdate extStub st0 zeroExportNet none 0).panicMessage
        = some "Graph with multiple outputs not yet handled"
    ∧ (handleGraphUpdate extStub st0 zeroExportNet none 0).responseOf = none := by
  constructor <;> rfl

/-- C1 (amended): a graph whose scoped form has an export count other than
one hits the defensive assertion and panics the loop (fatal, nothing
reported); a compiler-reported structural error on a one-export graph is
reported in a compilation response without a panic; and a valid graph
compiles successfully from any state, so only the assertion path is fatal. -/
theorem C1_zero_export_assertion (ext : ExternalBoundary) (st : NodeRuntimeState)
    (net : NodeNetwork) (fid : NodeId) :
    (net.exports.length ≠ 1 →
      handleGraphUpdate ext st net none fid
        = .panicked "Graph with multiple outputs not yet handled")
    ∧ (∀ e, net.exports.length = 1 →
        ext.compile_single (wrap_network_in_scope net) = .error e →
        (handleGraphUpdate ext st net none fid).responseOf
            = some { result := .error e, node_graph_errors := [] }
          ∧ (handleGraphUpdate ext st net none fid).panicMessage = none)
    ∧ (∀ proto d, net.exports.length = 1 →
        ext.compile_single (wrap_network_in_scope net) = .ok proto →
        proto.nodes.length ≠ 0 → ext.executor_update proto = .ok d →
        (handleGraphUpdate ext st net none fid).responseOf
          = some { result := .ok d, node_graph_errors := [] }) := by
  refine ⟨fun h => ?_, fun e h1 h2 => ?_, fun proto d h1 h2 h3 h4 => ?_⟩
  · simp [handleGraphUpdate, handleGraphUpdateCore, preCompileState, update_network,
      wrap_network_in_scope, h]
  · rw [wrap_network_in_scope] at h2
    constructor <;>
      simp [handleGraphUpdate, handleGraphUpdateCore, preCompileState, update_network,
        wrap_network_in_scope, h1, h2, LoopStepResult.responseOf, LoopStepResult.panicMessage]
  · rw [wrap_network_in_scope] at h2
    simp [handleGraphUpdate, handleGraphUpdateCore, preCompileState, update_network,
      wrap_network_in_scope, h1, h2, h3, h4, LoopStepResult.responseOf]

/-- C1 witness: the assertion fires on the zero-export network, and a
compiler error on the one-export network is reported non-fatally. -/
theorem C1_zero_export_assertion_witness :
    handleGraphUpdate extStub st0 zeroExportNet none 0
      = .panicked "Graph with multiple outputs not yet handled"
    ∧ (handleGraphUpdate extStub st0 exNet none 0).responseOf
      = some { result := .error "compile error", node_graph_errors := [] } :=
  ⟨(C1_zero_export_assertion extStub st0 zeroExportNet 0).1 (by decide),
   ((C1_zero_export_assertion extStub st0 exNet 0).2.1 "compile error" (by decide) rfl).1⟩

/-- C5 counterexample: a graph update with an inspect target stores a last
known graph different from the received pre-injection network (the stored
graph contains the injected monitor node). -/
theorem C5_pre_injection_counterexample :
    (handleGraphUpdate extStub st0 exNet (some 10) 99).oldGraphOf ≠ some exNet :=
  fun h =>
    absurd (congrArg (fun o => o.map fun n : NodeNetwork => n.nodes.length) h) (by decide)

/-- C5 (amended): whenever a graph update with an inspect target does not
panic, the stored last-known graph is the post-injection network produced by
monitor_inspect_node, which for a fresh monitor id has exactly one node more
than the received network. -/
theorem handleGraphUpdateCore_old_graph (ext : ExternalBoundary) (st : NodeRuntimeState)
    (network : NodeNetwork) (inspect : Option InspectState)
    (h : (handleGraphUpdateCore ext st network inspect).panicMessage = none) :
    (handleGraphUpdateCore ext st network inspect).oldGraphOf = some network := by
  rw [handleGraphUpdateCore] at h ⊢
  revert h
  cases hu : update_network ext (preCompileState st network inspect) network with
  | panicked msg =>
      intro h
      exact absurd h (by simp [LoopStepResult.panicMessage])
  | done st2 r =>
      intro _
      simp only [LoopStepResult.oldGraphOf]
      have hpres := update_network_old_graph _ _ _ _ _ hu
      rw [hpres]
      rfl

theorem C5_post_injection_stored (ext : ExternalBoundary) (st : NodeRuntimeState)
    (net : NodeNetwork) (t m : NodeId) :
    ((handleGraphUpdate ext st net (some t) m).panicMessage = none →
      (handleGraphUpdate ext st net (some t) m).oldGraphOf
        = some (monitor_inspect_node net t m).1)
    ∧ (containsKey net.nodes m = false →
        (monitor_inspect_node net t m).1.nodes.length = net.nodes.length + 1) := by
  constructor
  · intro h
    exact handleGraphUpdateCore_old_graph ext st (monitor_inspect_node net t m).1
      (some (monitor_inspect_node net t m).2) h
  · intro h
    have hf : containsKey
        (net.nodes.map fun e => (e.1, e.2.withInputs (e.2.inputs.map (retargetInput t m))))
        m = false := by
      rw [containsKey_map_keys]
      exact h
    show (insertKey
        (net.nodes.map fun e => (e.1, e.2.withInputs (e.2.inputs.map (retargetInput t m))))
        m (inspectMonitorNode t)).length = net.nodes.length + 1
    rw [insertKey_of_fresh _ _ _ hf]
    simp

/-- C3: monitor_inspect_node inserts exactly one fresh monitor node whose
single input is the primary output of the target, appends it to an otherwise
key-preserving rewiring of the node map, rewrites the exports the same way,
maps a reference to the target primary output to the monitor, and leaves
every other input unchanged. -/
theorem C3_monitor_inspect_rewiring (net : NodeNetwork) (t m : NodeId)
    (hfresh : containsKey net.nodes m = false) :
    (monitor_inspect_node net t m).2 = ⟨t, m⟩
    ∧ (monitor_inspect_node net t m).1.nodes
        = net.nodes.map (fun e => (e.1, e.2.withInputs (e.2.inputs.map (retargetInput t m))))
          ++ [(m, inspectMonitorNode t)]
    ∧ lookupKey (monitor_inspect_node net t m).1.nodes m = some (inspectMonitorNode t)
    ∧ (inspectMonitorNode t).inputs = [NodeInput.node t 0]
    ∧ (monitor_inspect_node net t m).1.exports = net.exports.map (retargetInput t m)
    ∧ retargetInput t m (NodeInput.node t 0) = NodeInput.node m 0
    ∧ (∀ inp : NodeInput, inp ≠ NodeInput.node t 0 → retargetInput t m inp = inp) := by
  have hf : containsKey
      (net.nodes.map fun e => (e.1, e.2.withInputs (e.2.inputs.map (retargetInput t m))))
      m = false := by
    rw [containsKey_map_keys]
    exact hfresh
  refine ⟨rfl, ?_, ?_, rfl, rfl, by simp [retargetInput], ?_⟩
  · show insertKey _ m _ = _
    exact insertKey_of_fresh _ _ _ hf
  · show lookupKey (insertKey _ m _) m = _
    rw [insertKey_of_fresh _ _ _ hf]
    exact lookupKey_append_fresh _ _ _ hf
  · intro inp hne
    match inp with
    | .value v => rfl
    | .node id idx =>
        by_cases h0 : idx = 0
        · by_cases ht : id = t
          · exact absurd (by rw [h0, ht]) hne
          · simp [retargetInput, h0, ht]
        · simp [retargetInput, h0]

/-- C3 witness: the rewiring shape holds on the example network with the
fresh monitor id 99 and target 10. -/
theorem C3_monitor_inspect_rewiring_witness :
    (monitor_inspect_node exNet 10 99).1.nodes
      = exNet.nodes.map (fun e => (e.1, e.2.withInputs (e.2.inputs.map (retargetInput 10 99))))
        ++ [(99, inspectMonitorNode 10)]
    ∧ (monitor_inspect_node exNet 10 99).1.exports = exNet.exports.map (retargetInput 10 99) :=
  ⟨(C3_monitor_inspect_rewiring exNet 10 99 (by decide)).2.1,
   (C3_monitor_inspect_rewiring exNet 10 99 (by decide)).2.2.2.2.1⟩

/-- The drain slots after reading the whole queue hold the last message of
each category. -/
theorem foldl_drainStep_eq (msgs : List NodeRuntimeMessage) :
    msgs.foldl drainStep ⟨none, none, none, none⟩ =
      ⟨(msgs.filter isFontMsg).getLast?, (msgs.filter isPreferencesMsg).getLast?,
       (msgs.filter isGraphMsg).getLast?, (msgs.filter isExecutionMsg).getLast?⟩ := by
  induction msgs using List.reverseRecOn with
  | nil => rfl
  | append_singleton l m ih =>
      rw [List.foldl_append, ih]
      cases m <;>
        simp [drainStep, List.filter_append, isFontMsg, isPreferencesMsg, isGraphMsg,
          isExecutionMsg, List.getLast?_concat]

/-- The last element of a filtered list satisfies the filter predicate. -/
theorem getLast?_filter_pred {α : Type} (p : α → Bool) (l : List α) (a : α)
    (h : (l.filter p).getLast? = some a) : p a = true :=
  List.of_mem_filter (List.mem_of_mem_getLast? h)

theorem flatMap_toList_count_zero (p : NodeRuntimeMessage → Bool) (msgs : List NodeRuntimeMessage)
    (r : ResponseKind) (hp : ∀ m, p m = true → (responsesOf m).count r = 0) :
    (((msgs.filter p).getLast?.toList).flatMap responsesOf).count r = 0 := by
  rcases h : (msgs.filter p).getLast? with _ | m
  · rfl
  · have hm := getLast?_filter_pred p msgs m h
    simpa using hp m hm

theorem flatMap_toList_count_le_one (p : NodeRuntimeMessage → Bool)
    (msgs : List NodeRuntimeMessage) (r : ResponseKind)
    (hp : ∀ m, p m = true → (responsesOf m).count r ≤ 1) :
    (((msgs.filter p).getLast?.toList).flatMap responsesOf).count r ≤ 1 := by
  rcases h : (msgs.filter p).getLast? with _ | m
  · exact Nat.zero_le 1
  · have hm := getLast?_filter_pred p msgs m h
    simpa using hp m hm

theorem filter_toList_self (p : NodeRuntimeMessage → Bool) (msgs : List NodeRuntimeMessage) :
    ((msgs.filter p).getLast?.toList).filter p = (msgs.filter p).getLast?.toList := by
  rcases h : (msgs.filter p).getLast? with _ | m
  · rfl
  · have hm := getLast?_filter_pred p msgs m h
    simp [hm]

theorem filter_toList_other (p q : NodeRuntimeMessage → Bool) (msgs : List NodeRuntimeMessage)
    (hpq : ∀ m, p m = true → q m = false) :
    ((msgs.filter p).getLast?.toList).filter q = [] := by
  rcases h : (msgs.filter p).getLast? with _ | m
  · rfl
  · have hm := getLast?_filter_pred p msgs m h
    simp [hpq m hm]

/-- C2: one drain cycle coalesces the queue to at most one message per
category, namely the last-received one of each category, processed in the
fixed order font, preferences, graph, execution; consequently at most one
compilation response and at most one execution response is emitted per drain,
and the retained graph update and execution request are exactly the last ones
received. -/
theorem C2_drain_coalescing (msgs : List NodeRuntimeMessage) :
    coalesce msgs
      = ((msgs.filter isFontMsg).getLast?).toList
        ++ ((msgs.filter isPreferencesMsg).getLast?).toList
        ++ ((msgs.filter isGraphMsg).getLast?).toList
        ++ ((msgs.filter isExecutionMsg).getLast?).toList
    ∧ ((coalesce msgs).flatMap responsesOf).count ResponseKind.compilation ≤ 1
    ∧ ((coalesce msgs).flatMap responsesOf).count ResponseKind.execution ≤ 1
    ∧ (coalesce msgs).filter isGraphMsg = ((msgs.filter isGraphMsg).getLast?).toList
    ∧ (coalesce msgs).filter isExecutionMsg = ((msgs.filter isExecutionMsg).getLast?).toList := by
  have hc : coalesce msgs
      = ((msgs.filter isFontMsg).getLast?).toList
        ++ ((msgs.filter isPreferencesMsg).getLast?).toList
        ++ ((msgs.filter isGraphMsg).getLast?).toList
        ++ ((msgs.filter isExecutionMsg).getLast?).toList := by
    rw [coalesce]
    simp only [foldl_drainStep_eq]
    rcases (msgs.filter isFontMsg).getLast? with _ | a <;>
      rcases (msgs.filter isPreferencesMsg).getLast? with _ | b <;>
      rcases (msgs.filter isGraphMsg).getLast? with _ | c <;>
      rcases (msgs.filter isExecutionMsg).getLast? with _ | d <;>
      simp [List.filterMap]
  refine ⟨hc, ?_, ?_, ?_, ?_⟩ <;> rw [hc]
  · rw [List.flatMap_append, List.flatMap_append, List.flatMap_append,
      List.count_append, List.count_append, List.count_append]
    have h1 := flatMap_toList_count_zero isFontMsg msgs ResponseKind.compilation
      (fun m hm => by cases m <;> simp_all [isFontMsg, responsesOf])
    have h2 := flatMap_toList_count_zero isPreferencesMsg msgs ResponseKind.compilation
      (fun m hm => by cases m <;> simp_all [isPreferencesMsg, responsesOf])
    have h3 := flatMap_toList_count_le_one isGraphMsg msgs ResponseKind.compilation
      (fun m hm => by cases m <;> simp_all [isGraphMsg, responsesOf])
    have h4 := flatMap_toList_count_zero isExecutionMsg msgs ResponseKind.compilation
      (fun m hm => by cases m <;> simp_all [isExecutionMsg, responsesOf])
    omega
  · rw [List.flatMap_append, List.flatMap_append, List.flatMap_append,
      List.count_append, List.count_append, List.count_append]
    have h1 := flatMap_toList_count_zero isFontMsg msgs ResponseKind.execution
      (fun m hm => by cases m <;> simp_all [isFontMsg, responsesOf])
    have h2 := flatMap_toList_count_zero isPreferencesMsg msgs ResponseKind.execution
      (fun m hm => by cases m <;> simp_all [isPreferencesMsg, responsesOf])
    have h3 := flatMap_toList_count_zero isGraphMsg msgs ResponseKind.execution
      (fun m hm => by cases m <;> simp_all [isGraphMsg, responsesOf])
    have h4 := flatMap_toList_count_le_one isExecutionMsg msgs ResponseKind.execution
      (fun m hm => by cases m <;> simp_all [isExecutionMsg, responsesOf])
    omega
  · rw [List.filter_append, List.filter_append, List.filter_append]
    rw [filter_toList_other isFontMsg isGraphMsg msgs
        (fun m hm => by cases m <;> simp_all [isFontMsg, isGraphMsg]),
      filter_toList_other isPreferencesMsg isGraphMsg msgs
        (fun m hm => by cases m <;> simp_all [isPreferencesMsg, isGraphMsg]),
      filter_toList_other isExecutionMsg isGraphMsg msgs
        (fun m hm => by cases m <;> simp_all [isExecutionMsg, isGraphMsg]),
      filter_toList_self isGraphMsg msgs]
    simp
  · rw [List.filter_append, List.filter_append, List.filter_append]
    rw [filter_toList_other isFontMsg isExecutionMsg msgs
        (fun m hm => by cases m <;> simp_all [isFontMsg, isExecutionMsg]),
      filter_toList_other isPreferencesMsg isExecutionMsg msgs
        (fun m hm => by cases m <;> simp_all [isPreferencesMsg, isExecutionMsg]),
      filter_toList_other isGraphMsg isExecutionMsg msgs
        (fun m hm => by cases m <;> simp_all [isGraphMsg, isExecutionMsg]),
      filter_toList_self isExecutionMsg msgs]
    simp

/-- C5 witness: the stored last-known graph equals the injected network and
has one node more than the received one. -/
theorem C5_post_injection_stored_witness :
    (handleGraphUpdate extStub st0 exNet (some 10) 99).oldGraphOf
      = some (monitor_inspect_node exNet 10 99).1
    ∧ (monitor_inspect_node exNet 10 99).1.nodes.length = exNet.nodes.length + 1 :=
  ⟨(C5_post_injection_stored extStub st0 exNet 10 99).1 (by decide),
   (C5_post_injection_stored extStub st0 exNet 10 99).2 (by decide)⟩

theorem keysOf_append {κ α : Type} (a b : List (κ × α)) :
    keysOf (a ++ b) = keysOf a ++ keysOf b := by
  simp [keysOf]

/-- Refreshing one thumbnail only ever adds the owning parent key. -/
theorem keysOf_process_graphic_element (th : List (NodeId × Nat)) (parent : NodeId) (out : Nat)
    (resp : List (NodeId × Nat)) (ut : Bool) (k : NodeId)
    (h : k ∈ keysOf (process_graphic_element th parent out resp ut).1) :
    k ∈ keysOf th ∨ k = parent := by
  simp only [process_graphic_element] at h
  split at h
  · exact Or.inl h
  · rcases hl : lookupKey th parent with _ | v <;> rw [hl] at h <;>
      simp only [Option.getD_none, Option.getD_some] at h <;> split at h
    · rcases keysOf_insertKey _ _ _ _ h with h1 | h1
      · rw [keysOf_append] at h1
        rcases List.mem_append.mp h1 with h2 | h2
        · exact Or.inl h2
        · exact Or.inr (by simpa [keysOf] using h2)
      · exact Or.inr h1
    · rw [keysOf_append] at h
      rcases List.mem_append.mp h with h2 | h2
      · exact Or.inl h2
      · exact Or.inr (by simpa [keysOf] using h2)
    · exact (keysOf_insertKey _ _ _ _ h).imp id id
    · exact Or.inl h

/-- One sweep iteration only ever adds keys taken from the processed path. -/
theorem keysOf_monitorStep (is : Option InspectState) (intr : Introspect) (ut : Bool)
    (acc : SweepAcc) (path : List NodeId) (k : NodeId)
    (h : k ∈ keysOf (monitorStep is intr ut acc path).thumbnail_renders) :
    k ∈ keysOf acc.thumbnail_renders ∨ k ∈ path := by
  rw [monitorStep] at h
  split at h
  · exact Or.inl h
  · split at h
    · exact Or.inl h
    · next parent hp =>
        split at h
        · exact Or.inl h
        · next ctx resultType out heq =>
            split at h
            · split at h
              · rcases keysOf_process_graphic_element acc.thumbnail_renders parent out
                    acc.responses ut k h with h1 | h1
                · exact Or.inl h1
                · exact Or.inr (h1 ▸ parentIdOf_mem path parent hp)
              · split at h
                · exact Or.inl h
                · exact Or.inl h
            · exact Or.inl h
        · exact Or.inl h

/-- The whole sweep only ever adds keys taken from the swept paths. -/
theorem keysOf_sweep_fold (is : Option InspectState) (intr : Introspect) (ut : Bool)
    (L : List (List NodeId)) :
    ∀ (acc : SweepAcc) (k : NodeId),
      k ∈ keysOf ((L.foldl (monitorStep is intr ut) acc).thumbnail_renders) →
      k ∈ keysOf acc.thumbnail_renders ∨ ∃ p ∈ L, k ∈ p := by
  induction L with
  | nil => exact fun acc k h => Or.inl h
  | cons p rest ih =>
      intro acc k h
      rcases ih (monitorStep is intr ut acc p) k h with h1 | ⟨q, hq, hkq⟩
      · rcases keysOf_monitorStep is intr ut acc p k h1 with h2 | h2
        · exact Or.inl h2
        · exact Or.inr ⟨p, by simp, h2⟩
      · exact Or.inr ⟨q, by simp [hq], hkq⟩

/-- C6 (amended): after the observation sweep every entry of the retained
thumbnail-render cache is keyed by a node id that occurs in some current
monitor path; the vector-modify cache is not pruned by the sweep. -/
theorem C6_thumbnail_cache_keys (st : NodeRuntimeState) (introspect : Introspect) (ut : Bool)
    (k : NodeId) (h : k ∈ keysOf (process_monitor_nodes st introspect ut).1.thumbnail_renders) :
    ∃ p ∈ st.monitor_nodes, k ∈ p := by
  simp only [process_monitor_nodes] at h
  rcases keysOf_sweep_fold st.inspect_state introspect ut st.monitor_nodes _ k h with h1 | h1
  · rw [keysOf] at h1
    obtain ⟨e, he, hk⟩ := List.mem_map.mp h1
    have hany := (List.mem_filter.mp he).2
    rw [List.any_eq_true] at hany
    obtain ⟨p, hp, hcont⟩ := hany
    exact ⟨p, hp, hk ▸ List.mem_of_elem_eq_true hcont⟩
  · exact h1

/-- C6 witness: on a state with one cached thumbnail and one monitor path the
key of every surviving thumbnail entry occurs in a monitor path. -/
theorem C6_thumbnail_cache_keys_witness : ∃ p ∈ stThumb.monitor_nodes, (1 : NodeId) ∈ p :=
  C6_thumbnail_cache_keys stThumb (fun _ => none) true 1 (by decide)

/-- C6 counterexample: a vector-modify entry whose owning node occurs in no
monitor path survives the sweep, so the vector-modify cache is not pruned. -/
theorem C6_vector_modify_counterexample :
    42 ∈ keysOf (process_monitor_nodes stVec (fun _ => none) true).1.vector_modify
    ∧ ∀ p ∈ stVec.monitor_nodes, 42 ∉ p := by
  constructor
  · decide
  · decide

theorem foldl_skip_filter {α β : Type} (g : β → α → β) (skip : α → Bool)
    (hg : ∀ b a, skip a = true → g b a = b) :
    ∀ (L : List α) (b : β), L.foldl g b = (L.filter (fun a => !skip a)).foldl g b := by
  intro L
  induction L with
  | nil => intro b; rfl
  | cons a rest ih =>
      intro b
      by_cases hs : skip a = true
      · rw [List.foldl_cons, hg b a hs, List.filter_cons, ih]
        simp [hs]
      · rw [List.foldl_cons, List.filter_cons]
        simp only [Bool.not_eq_true] at hs
        simp [hs, ih (g b a)]

/-- C9: when an inspect subscription is active and (as the fresh monitor id
guarantees) no cached thumbnail key occurs in an inspect-monitor path, the
sweep produces exactly the caches and thumbnail notifications that the
non-inspect monitors produce: running it with the inspect-monitor paths
removed gives the same thumbnail cache, vector-modify cache and messages. -/
theorem C9_inspect_monitor_skipped (st : NodeRuntimeState) (introspect : Introspect) (ut : Bool)
    (s : InspectState) (hs : st.inspect_state = some s)
    (hfresh : ∀ k ∈ keysOf st.thumbnail_renders, ∀ p ∈ st.monitor_nodes,
        p.getLast? = some s.monitor_node → k ∉ p) :
    (process_monitor_nodes st introspect ut).1.thumbnail_renders
      = (process_monitor_nodes
          { st with monitor_nodes :=
              st.monitor_nodes.filter (fun p => !isInspectMonitor (some s) p) }
          introspect ut).1.thumbnail_renders
    ∧ (process_monitor_nodes st introspect ut).1.vector_modify
      = (process_monitor_nodes
          { st with monitor_nodes :=
              st.monitor_nodes.filter (fun p => !isInspectMonitor (some s) p) }
          introspect ut).1.vector_modify
    ∧ (process_monitor_nodes st introspect ut).2
      = (process_monitor_nodes
          { st with monitor_nodes :=
              st.monitor_nodes.filter (fun p => !isInspectMonitor (some s) p) }
          introspect ut).2 := by
  have hretain : st.thumbnail_renders.filter
        (fun e => st.monitor_nodes.any (fun path => path.contains e.1))
      = st.thumbnail_renders.filter
        (fun e => (st.monitor_nodes.filter (fun p => !isInspectMonitor (some s) p)).any
          (fun path => path.contains e.1)) := by
    apply List.filter_congr
    intro e he
    rw [Bool.eq_iff_iff, List.any_eq_true, List.any_eq_true]
    constructor
    · rintro ⟨p, hp, hc⟩
      refine ⟨p, List.mem_filter.mpr ⟨hp, ?_⟩, hc⟩
      have hke : e.1 ∈ keysOf st.thumbnail_renders := List.mem_map.mpr ⟨e, he, rfl⟩
      rw [Bool.not_eq_true', isInspectMonitor]
      rw [decide_eq_false_iff_not]
      intro hlast
      exact hfresh e.1 hke p hp hlast (List.mem_of_elem_eq_true hc)
    · rintro ⟨p, hp, hc⟩
      exact ⟨p, (List.mem_filter.mp hp).1, hc⟩
  have hskip : ∀ (b : SweepAcc) (p : List NodeId),
      isInspectMonitor (some s) p = true → monitorStep (some s) introspect ut b p = b := by
    intro b p hp
    rw [monitorStep, if_pos hp]
  have hacc : st.monitor_nodes.foldl (monitorStep st.inspect_state introspect ut)
        ⟨st.thumbnail_renders.filter
          (fun e => st.monitor_nodes.any (fun path => path.contains e.1)),
         st.vector_modify, []⟩
      = (st.monitor_nodes.filter (fun p => !isInspectMonitor (some s) p)).foldl
        (monitorStep st.inspect_state introspect ut)
        ⟨st.thumbnail_renders.filter
          (fun e => (st.monitor_nodes.filter (fun p => !isInspectMonitor (some s) p)).any
            (fun path => path.contains e.1)),
         st.vector_modify, []⟩ := by
    rw [← hretain, hs]
    exact foldl_skip_filter _ _ hskip st.monitor_nodes _
  exact ⟨congrArg SweepAcc.thumbnail_renders hacc,
    congrArg SweepAcc.vector_modify hacc,
    congrArg SweepAcc.responses hacc⟩

/-- C9 witness: with the inspect monitor 99 active, the sweep over the full
monitor set and over the set without the inspect-monitor paths agree on both
caches and on the emitted messages. -/
theorem C9_inspect_monitor_skipped_witness :
    (process_monitor_nodes stC9 (fun _ => none) true).1.thumbnail_renders
      = (process_monitor_nodes stC9' (fun _ => none) true).1.thumbnail_renders
    ∧ (process_monitor_nodes stC9 (fun _ => none) true).1.vector_modify
      = (process_monitor_nodes stC9' (fun _ => none) true).1.vector_modify
    ∧ (process_monitor_nodes stC9 (fun _ => none) true).2
      = (process_monitor_nodes stC9' (fun _ => none) true).2 :=
  C9_inspect_monitor_skipped stC9 (fun _ => none) true ⟨1, 99⟩ rfl (by decide)

/-- C10: whenever introspecting a monitor succeeds but the stored value is
not an IORecord over unit, Footprint or Context for the expected result type,
the downcast panics with the fixed message, and so do the three
instrumentation queries at such an occurrence, instead of returning no value
or skipping it. -/
theorem C10_downcast_mismatch_panics (resultType : String) (v : IntrospectedValue)
    (hv : downcastable resultType v = false) :
    downcast resultType v = .error "cannot downcast type for introspection"
    ∧ (∀ (inst : Instrumented) (introspect : Introspect) (path : List NodeId) (index : Nat)
        (inputs : List (List NodeId)) (mpath : List NodeId),
        lookupKey inst.protonodes_by_path path = some inputs →
        inputs.get? index = some mpath → introspect mpath = some v →
        grab_protonode_input inst introspect path index resultType
          = .error "cannot downcast type for introspection")
    ∧ (∀ rest, downcastAll resultType (v :: rest)
        = .error "cannot downcast type for introspection")
    ∧ (∀ (inst : Instrumented) (introspect : Introspect) (node : NodeId) (index : Nat)
        (inputs : List (List NodeId)) (mpath : List NodeId),
        lookupKey inst.protonodes_by_path [node] = some inputs →
        inputs.get? index = some mpath → introspect mpath = some v →
        grab_input_from_layer inst introspect (some node) index resultType
          = .error "cannot downcast type for introspection") := by
  have hd : downcast resultType v = .error "cannot downcast type for introspection" := by
    cases v with
    | ioRecord ctx rt out =>
        rw [downcast, if_neg]
        rintro ⟨h1, h2⟩
        rw [downcastable] at hv
        simp [h1, h2] at hv
    | notIORecord => rfl
  have hg : ∀ (inst : Instrumented) (introspect : Introspect) (path : List NodeId) (index : Nat)
      (inputs : List (List NodeId)) (mpath : List NodeId),
      lookupKey inst.protonodes_by_path path = some inputs →
      inputs.get? index = some mpath → introspect mpath = some v →
      grab_protonode_input inst introspect path index resultType
        = .error "cannot downcast type for introspection" := by
    intro inst introspect path index inputs mpath h1 h2 h3
    simp only [grab_protonode_input, h1, h2, h3, hd]
  refine ⟨hd, hg, fun rest => ?_, fun inst introspect node index inputs mpath h1 h2 h3 => ?_⟩
  · rw [downcastAll, hd]
  · rw [grab_input_from_layer]
    exact hg inst introspect [node] index inputs mpath h1 h2 h3

/-- C10 witness: a stored value that is no IORecord makes the exact-path
query panic with the fixed message. -/
theorem C10_downcast_mismatch_panics_witness :
    grab_protonode_input instW
        (fun p => if p = [7] then some IntrospectedValue.notIORecord else none) [3] 0 "T"
      = .error "cannot downcast type for introspection" :=
  (C10_downcast_mismatch_panics "T" .notIORecord (by decide)).2.1 instW
    (fun p => if p = [7] then some IntrospectedValue.notIORecord else none)
    [3] 0 [[7]] [7] rfl rfl (by decide)

theorem lookup_pushOccurrence_self (m : List (String × List (List (List NodeId))))
    (name : String) (occ : List (List NodeId)) :
    lookupKey (pushOccurrence m name occ) name = some ((lookupKey m name).getD [] ++ [occ]) := by
  induction m with
  | nil => simp [pushOccurrence, lookupKey]
  | cons e rest ih =>
      obtain ⟨k, v⟩ := e
      by_cases hk : k = name
      · subst hk
        simp [pushOccurrence, lookupKey]
      · simp [pushOccurrence, lookupKey, hk, ih]

theorem lookup_pushOccurrence_other (m : List (String × List (List (List NodeId))))
    (name name' : String) (occ : List (List NodeId)) (h : name' ≠ name) :
    lookupKey (pushOccurrence m name occ) name' = lookupKey m name' := by
  induction m with
  | nil => simp [pushOccurrence, lookupKey, Ne.symm h]
  | cons e rest ih =>
      obtain ⟨k, v⟩ := e
      by_cases hk : k = name
      · subst hk
        simp [pushOccurrence, lookupKey, Ne.symm h]
      · simp [pushOccurrence, lookupKey, hk, ih]

theorem instrumentInputs_mids_length (ctr : Nat) (path : List NodeId) (inputs : List NodeInput) :
    (instrumentInputs ctr path inputs).2.2.2.length = inputs.length := by
  induction inputs generalizing ctr with
  | nil => rfl
  | cons i rest ih => simp [instrumentInputs, ih]

mutual
/-- Walking a node map appends one occurrence, of length the input count, to
the by-name entry for every proto node with the given name, in traversal
order. -/
theorem entry_len_addNodes (name : String) :
    ∀ (nodes : List (NodeId × DocumentNode)) (inst : Instrumented) (ctr : Nat)
      (path : List NodeId),
      (entryOcc (Instrumented.addNodes inst ctr path nodes).1 name).map List.length
        = (entryOcc inst name).map List.length ++ protonodeInputCountsNodes name nodes
  | [], inst, ctr, path => by
      simp [Instrumented.addNodes, protonodeInputCountsNodes]
  | (id, node) :: rest, inst, ctr, path => by
      simp only [Instrumented.addNodes]
      rw [entry_len_addNodes name rest _ _ path, entry_len_addNode name node inst ctr path id,
        protonodeInputCountsNodes, List.append_assoc]

/-- Walking a single node does the same for that node. -/
theorem entry_len_addNode (name : String) :
    ∀ (node : DocumentNode) (inst : Instrumented) (ctr : Nat) (path : List NodeId) (id : NodeId),
      (entryOcc (Instrumented.addNode inst ctr path id node).1 name).map List.length
        = (entryOcc inst name).map List.length ++ protonodeInputCountsNode name node
  | .protoNode inputs identifier mc sd, inst, ctr, path, id => by
      simp only [Instrumented.addNode]
      by_cases hid : identifier = name
      · subst hid
        simp only [entryOcc, lookup_pushOccurrence_self, Option.getD_some, List.map_append,
          protonodeInputCountsNode, if_pos rfl]
        simp [instrumentInputs_mids_length]
      · simp only [entryOcc, lookup_pushOccurrence_other _ _ _ _ (Ne.symm hid),
          protonodeInputCountsNode, if_neg hid]
        simp
  | .networkNode inputs nestedNodes nestedExports mc sd, inst, ctr, path, id => by
      simp only [Instrumented.addNode]
      rw [entry_len_addNodes name nestedNodes inst ctr (path ++ [id]), protonodeInputCountsNode]
end

theorem downcastAll_ok_forall₂ (resultType : String) :
    ∀ (l : List IntrospectedValue) (xs : List Nat),
      downcastAll resultType l = .ok xs →
      List.Forall₂ (fun d x => downcast resultType d = Except.ok x) l xs := by
  intro l
  induction l with
  | nil =>
      intro xs h
      rw [downcastAll] at h
      cases h
      exact List.Forall₂.nil
  | cons v rest ih =>
      intro xs h
      rw [downcastAll] at h
      split at h
      · exact absurd h (by simp)
      · next x hx =>
          split at h
          · exact absurd h (by simp)
          · next xs' hxs =>
              cases h
              exact List.Forall₂.cons hx (ih xs' hxs)

/-- C7: whenever grab_all_input returns without panicking, its items are, in
order, exactly the downcast values of the introspection successes at the
index-th monitored input over the occurrence list of the named proto node
(occurrences without that input or whose introspection fails are silently
dropped), and the occurrence list built by instrumentation has exactly one
entry, carrying one monitor path per input, per proto node of that name in
the graph, in traversal order. -/
theorem C7_grab_all_input_occurrences (net : NodeNetwork) (name : String) (index : Nat)
    (resultType : String) (introspect : Introspect) (l : List Nat)
    (h : grab_all_input (Instrumented.new net).1 introspect name index resultType = .ok l) :
    List.Forall₂ (fun d x => downcast resultType d = Except.ok x)
      (((entryOcc (Instrumented.new net).1 name).filterMap
          (fun inputs => inputs.get? index)).filterMap introspect) l
    ∧ l.length = (((entryOcc (Instrumented.new net).1 name).filterMap
        (fun inputs => inputs.get? index)).filterMap introspect).length
    ∧ (entryOcc (Instrumented.new net).1 name).map List.length
      = protonodeInputCountsNodes name net.nodes := by
  rw [grab_all_input] at h
  have hf := downcastAll_ok_forall₂ resultType _ l h
  refine ⟨hf, (List.Forall₂.length_eq hf).symm, ?_⟩
  have hnew : (Instrumented.new net).1
      = (Instrumented.addNodes Instrumented.empty 0 [] net.nodes).1 := rfl
  rw [hnew, entry_len_addNodes name net.nodes Instrumented.empty 0 []]
  simp [entryOcc, Instrumented.empty, lookupKey]

/-- C7 witness: on the example network the query returns the single observed
value and the occurrence index matches the single TestNode occurrence with
its two inputs. -/
theorem C7_grab_all_input_occurrences_witness :
    (entryOcc (Instrumented.new exNet).1 "TestNode").map List.length
      = protonodeInputCountsNodes "TestNode" exNet.nodes
    ∧ ((entryOcc (Instrumented.new exNet).1 "TestNode").filterMap
        (fun inputs => inputs.get? 0)).filterMap introspectW
      = [.ioRecord .unitCtx "T" 5] :=
  ⟨(C7_grab_all_input_occurrences exNet "TestNode" 0 "T" introspectW [5] (by decide)).2.2,
   by decide⟩

end Graphite
